import Mathlib

/-!
# Verification of the statement-parser driving engine

Shallow embedding of the generic parser state machine
(`src/parser/parser-state-machine.ts`, function `createParserStateMachine`),
the option-layering resolver, the statement-parser orchestrator
(`src/parser/statement-parser.ts`, `createStatementParser`) and the concrete
PayPal format definition
(`src/parser/implemented-parsers/paypal-parser.ts`), together with proofs of
the specification's claims about them.

Machine numbers that matter here are decimal currency amounts; they are
modelled as exact rationals (every literal appearing in the inputs, such as
4.50, is exactly representable in the source's binary floating point as
well, so comparisons against zero agree). The JavaScript value `NaN`
produced by `Number` on a malformed string is modelled by a dedicated
constructor.
-/

/-- JavaScript `String.prototype.includes` on character lists:
`needle` occurs contiguously inside the list. -/
def strIncludesAux (needle : List Char) : List Char → Bool
  | [] => needle.isEmpty
  | c :: rest => needle.isPrefixOf (c :: rest) || strIncludesAux needle rest

/-- JavaScript `hay.includes(needle)`. -/
def strIncludes (hay needle : String) : Bool :=
  strIncludesAux needle.data hay.data

/-- The three fatal conditions the engine can signal
(`parser-state-machine.ts` lines 104-137): reaching the end of the line
sequence while not in the end state, an exception thrown by a
caller-supplied action/next function (re-thrown with file context), and
finishing with an empty account suffix. Each carries the thrown message. -/
inductive EngineError where
  | endOfInput (msg : String)
  | wrapped (msg : String)
  | incompleteOutput (msg : String)
deriving DecidableEq, Repr

/-- Message thrown at end of input (`parser-state-machine.ts` line 112);
`p` is `output.filePath` at the moment of failure. -/
def endOfInputMsg (p : String) : String :=
  "Reached end of input before hitting end state on " ++ p

/-- Message decoration applied to an error escaping a caller-supplied
action or next function (`parser-state-machine.ts` line 125); `p` is the
`filePath` supplied to the machine. -/
def wrapMsg (m p : String) : String :=
  m ++ " in file: " ++ p

/-- Message thrown when the loop ends with an empty account suffix
(`parser-state-machine.ts` line 131); `p` is `output.filePath`. -/
def incompleteMsg (p : String) : String :=
  "Parse completed without filling in account suffix on " ++ p

/-- One observable call the engine makes into the caller-supplied format
definition: an action invocation or a next-state (transition) invocation.
Both record exactly the arguments the source passes: the current state and
the current line (`output = action(state, input, output, parserOptions)`
then `state = next(state, input)`, lines 122-123; per its declared type at
line 20 the next function never receives the action's output). -/
inductive EngineEvent (σ : Type) where
  | actionCall (state : σ) (line : String)
  | nextCall (state : σ) (line : String)
deriving DecidableEq, Repr

/-- The data `createParserStateMachine` closes over, generic over the state
type `σ` and the output type `ω` exactly as the source is generic over
`StateType` and `OutputType extends ParsedOutput`. Caller-supplied action
and next functions may throw (modelled by `Except String`). `getFilePath`
and `getAccountSuffix` project the two `ParsedOutput` fields the engine
itself reads. -/
structure MachineCtx (σ ω : Type) where
  action : σ → String → ω → Except String ω
  next : σ → String → Except String σ
  endState : σ
  filePath : String
  getFilePath : ω → String
  getAccountSuffix : ω → String

/-- The engine's `while (state !== endState)` loop
(`parser-state-machine.ts` lines 104-128), instrumented with the list of
action/next invocations it performs. On success it returns the final
output together with the lines left unconsumed by the iterator; errors
carry the exact thrown message. Per source: the end-of-input message uses
`output.filePath` of the current output, while the wrap decoration uses
the supplied `filePath`. -/
def runLoop [DecidableEq σ] (ctx : MachineCtx σ ω) :
    σ → ω → List String → List (EngineEvent σ) × Except EngineError (ω × List String)
  | s, o, lines =>
    if s = ctx.endState then ([], .ok (o, lines))
    else
      match lines with
      | [] => ([], .error (.endOfInput (endOfInputMsg (ctx.getFilePath o))))
      | line :: rest =>
        match ctx.action s line o with
        | .error msg => ([.actionCall s line], .error (.wrapped (wrapMsg msg ctx.filePath)))
        | .ok o' =>
          match ctx.next s line with
          | .error msg =>
            ([.actionCall s line, .nextCall s line],
              .error (.wrapped (wrapMsg msg ctx.filePath)))
          | .ok s' =>
            let r := runLoop ctx s' o' rest
            (.actionCall s line :: .nextCall s line :: r.1, r.2)

/-- The full state-machine run (`parser-state-machine.ts` lines 104-139):
the loop followed by the `!output.accountSuffix` completion check (an empty
string is the only falsy string) and the return of the final output. -/
def runParser [DecidableEq σ] (ctx : MachineCtx σ ω) (s : σ) (o : ω)
    (lines : List String) : Except EngineError ω :=
  match (runLoop ctx s o lines).2 with
  | .error e => .error e
  | .ok (out, _) =>
    if ctx.getAccountSuffix out = "" then
      .error (.incompleteOutput (incompleteMsg (ctx.getFilePath out)))
    else
      .ok out

/-! ## Unfolding lemmas for the loop -/

theorem runLoop_end [DecidableEq σ] (ctx : MachineCtx σ ω) (o : ω) (lines : List String) :
    runLoop ctx ctx.endState o lines = ([], .ok (o, lines)) := by
  unfold runLoop
  simp

theorem runLoop_nil [DecidableEq σ] (ctx : MachineCtx σ ω) {s : σ} (o : ω)
    (h : s ≠ ctx.endState) :
    runLoop ctx s o [] = ([], .error (.endOfInput (endOfInputMsg (ctx.getFilePath o)))) := by
  unfold runLoop
  simp [h]

theorem runLoop_action_error [DecidableEq σ] (ctx : MachineCtx σ ω) {s : σ} {o : ω}
    {line : String} {rest : List String} {msg : String}
    (h : s ≠ ctx.endState) (ha : ctx.action s line o = .error msg) :
    runLoop ctx s o (line :: rest) =
      ([.actionCall s line], .error (.wrapped (wrapMsg msg ctx.filePath))) := by
  unfold runLoop
  simp [h, ha]

theorem runLoop_next_error [DecidableEq σ] (ctx : MachineCtx σ ω) {s : σ} {o o' : ω}
    {line : String} {rest : List String} {msg : String}
    (h : s ≠ ctx.endState) (ha : ctx.action s line o = .ok o')
    (hn : ctx.next s line = .error msg) :
    runLoop ctx s o (line :: rest) =
      ([.actionCall s line, .nextCall s line],
        .error (.wrapped (wrapMsg msg ctx.filePath))) := by
  unfold runLoop
  simp [h, ha, hn]

theorem runLoop_step [DecidableEq σ] (ctx : MachineCtx σ ω) {s s' : σ} {o o' : ω}
    {line : String} {rest : List String}
    (h : s ≠ ctx.endState) (ha : ctx.action s line o = .ok o')
    (hn : ctx.next s line = .ok s') :
    runLoop ctx s o (line :: rest) =
      (.actionCall s line :: .nextCall s line :: (runLoop ctx s' o' rest).1,
        (runLoop ctx s' o' rest).2) := by
  conv_lhs => unfold runLoop
  simp [h, ha, hn]

theorem runParser_loop_error [DecidableEq σ] (ctx : MachineCtx σ ω) {s : σ} {o : ω}
    {lines : List String} {e : EngineError}
    (h : (runLoop ctx s o lines).2 = .error e) :
    runParser ctx s o lines = .error e := by
  simp [runParser, h]

theorem runParser_loop_ok [DecidableEq σ] (ctx : MachineCtx σ ω) {s : σ} {o out : ω}
    {lines left : List String}
    (h : (runLoop ctx s o lines).2 = .ok (out, left)) :
    runParser ctx s o lines =
      if ctx.getAccountSuffix out = "" then
        .error (.incompleteOutput (incompleteMsg (ctx.getFilePath out)))
      else
        .ok out := by
  simp [runParser, h]

/-! ## Substring facts -/

theorem isPrefixOf_self_eq (l : List Char) : l.isPrefixOf l = true := by
  induction l with
  | nil => rfl
  | cons c cs ih => simp [List.isPrefixOf, ih]

theorem strIncludesAux_append (n : List Char) : ∀ pre, strIncludesAux n (pre ++ n) = true := by
  intro pre
  induction pre with
  | nil =>
    cases n with
    | nil => rfl
    | cons c cs => simp [strIncludesAux, isPrefixOf_self_eq]
  | cons c pre ih => simp [strIncludesAux, ih]

/-- A string always includes its own tail: used to show the engine's
messages include the file path they embed. -/
theorem strIncludes_append_self (pre p : String) : strIncludes (pre ++ p) p = true := by
  unfold strIncludes
  rw [String.data_append]
  exact strIncludesAux_append p.data pre.data

/-! ## Invariants threaded through the loop -/

/-- When every action invocation preserves the output's `filePath` field, a
successful loop run preserves it end to end. -/
theorem runLoop_ok_filePath [DecidableEq σ] (ctx : MachineCtx σ ω)
    (hpres : ∀ s l o o', ctx.action s l o = .ok o' → ctx.getFilePath o' = ctx.getFilePath o) :
    ∀ (lines : List String) (s : σ) (o out : ω) (left : List String),
      (runLoop ctx s o lines).2 = .ok (out, left) → ctx.getFilePath out = ctx.getFilePath o := by
  intro lines
  induction lines with
  | nil =>
    intro s o out left h
    by_cases hs : s = ctx.endState
    · subst hs
      rw [runLoop_end] at h
      simp at h
      rw [h.1]
    · rw [runLoop_nil ctx o hs] at h
      simp at h
  | cons line rest ih =>
    intro s o out left h
    by_cases hs : s = ctx.endState
    · subst hs
      rw [runLoop_end] at h
      simp at h
      rw [h.1]
    · cases ha : ctx.action s line o with
      | error msg =>
        rw [runLoop_action_error ctx hs ha] at h
        simp at h
      | ok o' =>
        cases hn : ctx.next s line with
        | error msg =>
          rw [runLoop_next_error ctx hs ha hn] at h
          simp at h
        | ok s' =>
          rw [runLoop_step ctx hs ha hn] at h
          rw [ih s' o' out left h, hpres s line o o' ha]

/-- Every end-of-input failure's message is `endOfInputMsg` of the filePath
field of the output current at the moment of exhaustion (under
action-preservation of that field, of the starting output). -/
theorem runLoop_endOfInput_msg [DecidableEq σ] (ctx : MachineCtx σ ω)
    (hpres : ∀ s l o o', ctx.action s l o = .ok o' → ctx.getFilePath o' = ctx.getFilePath o) :
    ∀ (lines : List String) (s : σ) (o : ω) (m : String),
      (runLoop ctx s o lines).2 = .error (.endOfInput m) →
      m = endOfInputMsg (ctx.getFilePath o) := by
  intro lines
  induction lines with
  | nil =>
    intro s o m h
    by_cases hs : s = ctx.endState
    · subst hs
      rw [runLoop_end] at h
      simp at h
    · rw [runLoop_nil ctx o hs] at h
      simp at h
      exact h.symm
  | cons line rest ih =>
    intro s o m h
    by_cases hs : s = ctx.endState
    · subst hs
      rw [runLoop_end] at h
      simp at h
    · cases ha : ctx.action s line o with
      | error msg =>
        rw [runLoop_action_error ctx hs ha] at h
        simp at h
      | ok o' =>
        cases hn : ctx.next s line with
        | error msg =>
          rw [runLoop_next_error ctx hs ha hn] at h
          simp at h
        | ok s' =>
          rw [runLoop_step ctx hs ha hn] at h
          rw [ih s' o' m h, hpres s line o o' ha]

/-! ## Claim C1 — end of input before the end state -/

/-- Claim C1, amended. Exhausting the line iterator while the state is not
the end state always fails with the end-of-input error and returns no
output; the thrown message embeds the filePath field of the output current
at that moment, which equals the supplied `filePath` whenever no action
invocation overwrites that field (so the message then contains the
supplied file path). -/
theorem c1_end_of_input_failure [DecidableEq σ] (ctx : MachineCtx σ ω)
    (hpres : ∀ s l o o', ctx.action s l o = .ok o' → ctx.getFilePath o' = ctx.getFilePath o) :
    (∀ (s : σ) (o : ω), s ≠ ctx.endState →
        runParser ctx s o [] = .error (.endOfInput (endOfInputMsg (ctx.getFilePath o))) ∧
        strIncludes (endOfInputMsg (ctx.getFilePath o)) (ctx.getFilePath o) = true) ∧
    (∀ (s : σ) (o : ω) (lines : List String) (m : String),
        ctx.getFilePath o = ctx.filePath →
        (runLoop ctx s o lines).2 = .error (.endOfInput m) →
        runParser ctx s o lines = .error (.endOfInput m) ∧
        m = endOfInputMsg ctx.filePath ∧
        strIncludes m ctx.filePath = true) := by
  constructor
  · intro s o hs
    constructor
    · exact runParser_loop_error ctx (by rw [runLoop_nil ctx o hs])
    · exact strIncludes_append_self "Reached end of input before hitting end state on " _
  · intro s o lines m h0 h
    have hm := runLoop_endOfInput_msg ctx hpres lines s o m h
    rw [h0] at hm
    refine ⟨runParser_loop_error ctx h, hm, ?_⟩
    rw [hm]
    exact strIncludes_append_self "Reached end of input before hitting end state on " _

/-- A format definition whose action overwrites the output's `filePath`
field (`action` returns an output with filePath "QQ" although the machine
was supplied "XYZ"), used to refute the claim that the end-of-input and
incomplete-output messages always contain the supplied file path. -/
def overwritingCtx : MachineCtx Bool String where
  action := fun _ _ _ => .ok "QQ"
  next := fun _ _ => .ok false
  endState := true
  filePath := "XYZ"
  getFilePath := fun o => o
  getAccountSuffix := fun _ => "acct"

/-- Claim C1, counterexample to the claim as stated: a parse run that
exhausts its input while not in the end state, whose error message does
not contain the supplied file path "XYZ" — it embeds `output.filePath`
("QQ", overwritten by the action), per `parser-state-machine.ts` line 112. -/
theorem c1_counterexample :
    runParser overwritingCtx false "XYZ" ["a line"] =
      .error (.endOfInput (endOfInputMsg "QQ")) ∧
    strIncludes (endOfInputMsg "QQ") "XYZ" = false := by
  constructor
  · rfl
  · rfl

/-- A benign format definition whose action never changes the output (and
hence preserves the filePath field). -/
def pathKeepingCtx : MachineCtx Bool String where
  action := fun _ _ o => .ok o
  next := fun _ _ => .ok false
  endState := true
  filePath := "f.pdf"
  getFilePath := fun _ => "f.pdf"
  getAccountSuffix := fun o => o

/-- Witness for `c1_end_of_input_failure` at a concrete machine. -/
theorem c1_witness :
    runParser pathKeepingCtx false "acct" [] =
      .error (.endOfInput (endOfInputMsg "f.pdf")) ∧
    strIncludes (endOfInputMsg "f.pdf") "f.pdf" = true :=
  (c1_end_of_input_failure pathKeepingCtx (fun _ _ _ _ _ => rfl)).1 false "acct" (by decide)

/-! ## Claim C2 — empty account suffix at completion -/

/-- Claim C2, amended. A parse returns an output only when the account
suffix is non-empty at termination; when the loop reaches the end state
with the suffix still empty it fails with the incomplete-output error
whose message embeds the filePath field of the final output — this equals
the supplied file path whenever no action overwrites that field (the
stated hypothesis), so the message then contains the supplied path. -/
theorem c2_incomplete_output_failure [DecidableEq σ] (ctx : MachineCtx σ ω)
    (hpres : ∀ s l o o', ctx.action s l o = .ok o' → ctx.getFilePath o' = ctx.getFilePath o) :
    (∀ (s : σ) (o : ω) (lines : List String) (out : ω),
        runParser ctx s o lines = .ok out → ctx.getAccountSuffix out ≠ "") ∧
    (∀ (s : σ) (o : ω) (lines : List String) (out : ω) (left : List String),
        ctx.getFilePath o = ctx.filePath →
        (runLoop ctx s o lines).2 = .ok (out, left) →
        ctx.getAccountSuffix out = "" →
        runParser ctx s o lines = .error (.incompleteOutput (incompleteMsg ctx.filePath)) ∧
        strIncludes (incompleteMsg ctx.filePath) ctx.filePath = true) := by
  constructor
  · intro s o lines out h
    cases hl : (runLoop ctx s o lines).2 with
    | error e => rw [runParser_loop_error ctx hl] at h; simp at h
    | ok r =>
      obtain ⟨out', left⟩ := r
      rw [runParser_loop_ok ctx hl] at h
      by_cases hsuf : ctx.getAccountSuffix out' = ""
      · rw [if_pos hsuf] at h; simp at h
      · rw [if_neg hsuf] at h
        simp at h
        rw [← h]
        exact hsuf
  · intro s o lines out left h0 hl hsuf
    have hfp : ctx.getFilePath out = ctx.getFilePath o :=
      runLoop_ok_filePath ctx hpres lines s o out left hl
    constructor
    · rw [runParser_loop_ok ctx hl, if_pos hsuf, hfp, h0]
    · exact strIncludes_append_self "Parse completed without filling in account suffix on " _

/-- A format definition whose action overwrites the output's filePath field
and never fills the account suffix, reaching the end state after one line. -/
def overwritingCtx2 : MachineCtx Bool String where
  action := fun _ _ _ => .ok "QQ"
  next := fun _ _ => .ok true
  endState := true
  filePath := "XYZ"
  getFilePath := fun o => o
  getAccountSuffix := fun _ => ""

/-- Claim C2, counterexample to the claim as stated: the end state is
reached with an empty account suffix, the parse fails, but the message
does not contain the supplied file path "XYZ" — it embeds
`output.filePath` ("QQ", overwritten by the action), per
`parser-state-machine.ts` line 131. -/
theorem c2_counterexample :
    runParser overwritingCtx2 false "XYZ" ["a line"] =
      .error (.incompleteOutput (incompleteMsg "QQ")) ∧
    strIncludes (incompleteMsg "QQ") "XYZ" = false := by
  constructor
  · rfl
  · rfl

/-- A format definition that reaches the end state after one line without
ever setting the account suffix or touching the output. -/
def emptySuffixCtx : MachineCtx Bool String where
  action := fun _ _ o => .ok o
  next := fun _ _ => .ok true
  endState := true
  filePath := "g.pdf"
  getFilePath := fun _ => "g.pdf"
  getAccountSuffix := fun _ => ""

/-- Witness for `c2_incomplete_output_failure` at a concrete machine. -/
theorem c2_witness :
    runParser emptySuffixCtx false "o" ["x"] =
      .error (.incompleteOutput (incompleteMsg "g.pdf")) ∧
    strIncludes (incompleteMsg "g.pdf") "g.pdf" = true :=
  (c2_incomplete_output_failure emptySuffixCtx (fun _ _ _ _ _ => rfl)).2
    false "o" ["x"] "o" [] rfl rfl rfl

/-! ## Claim C3 — one action then one transition per consumed line -/

/-- Claim C3. In every loop run that terminates normally, the sequence of
calls into the format definition is exactly, for each consumed line in
order, one action invocation directly followed by one next (transition)
invocation carrying the same state and line — the transition receives
only the current state and the line (its `nextStateFunction` type, line 20
of the source, gives it no access to the action's output), and the
consumed lines are precisely the input prefix before the unconsumed
remainder. -/
theorem c3_action_then_transition [DecidableEq σ] (ctx : MachineCtx σ ω) :
    ∀ (lines : List String) (s : σ) (o out : ω) (left : List String),
      (runLoop ctx s o lines).2 = .ok (out, left) →
      ∃ steps : List (σ × String),
        (runLoop ctx s o lines).1 =
          (steps.map (fun p => [EngineEvent.actionCall p.1 p.2,
            EngineEvent.nextCall p.1 p.2])).flatten ∧
        steps.map Prod.snd ++ left = lines := by
  intro lines
  induction lines with
  | nil =>
    intro s o out left h
    by_cases hs : s = ctx.endState
    · subst hs
      rw [runLoop_end] at h ⊢
      simp at h
      exact ⟨[], by simp, by simp [h.2]⟩
    · rw [runLoop_nil ctx o hs] at h
      simp at h
  | cons line rest ih =>
    intro s o out left h
    by_cases hs : s = ctx.endState
    · subst hs
      rw [runLoop_end] at h ⊢
      simp at h
      exact ⟨[], by simp, by simp [h.2]⟩
    · cases ha : ctx.action s line o with
      | error msg => rw [runLoop_action_error ctx hs ha] at h; simp at h
      | ok o' =>
        cases hn : ctx.next s line with
        | error msg => rw [runLoop_next_error ctx hs ha hn] at h; simp at h
        | ok s' =>
          rw [runLoop_step ctx hs ha hn] at h ⊢
          obtain ⟨steps, htr, hlines⟩ := ih s' o' out left h
          refine ⟨(s, line) :: steps, ?_, ?_⟩
          · simp [htr]
          · simp [hlines]

/-- A benign machine consuming one line of two before reaching the end
state, used for concrete instantiations. -/
def idleCtx : MachineCtx Bool String where
  action := fun _ _ o => .ok o
  next := fun _ _ => .ok true
  endState := true
  filePath := "i.pdf"
  getFilePath := fun _ => "i.pdf"
  getAccountSuffix := fun _ => "1234"

/-- Witness for `c3_action_then_transition` at a concrete machine. -/
theorem c3_witness :
    ∃ steps : List (Bool × String),
      (runLoop idleCtx false "o" ["a", "b"]).1 =
        (steps.map (fun p => [EngineEvent.actionCall p.1 p.2,
          EngineEvent.nextCall p.1 p.2])).flatten ∧
      steps.map Prod.snd ++ ["b"] = ["a", "b"] :=
  c3_action_then_transition idleCtx ["a", "b"] false "o" "o" ["b"] rfl

/-! ## Claim C6 — error wrapping of action/transition failures -/

/-- Claim C6. An exception escaping the caller-supplied action (or, after
a successful action, the transition) makes the whole parse fail at once
with the original message suffixed by " in file: " and the supplied file
path (`wrapMsg`); the remaining lines are irrelevant (no retry — they are
quantified arbitrarily and never touched, as the trace conjunct shows),
and no output is returned. -/
theorem c6_error_wrapping [DecidableEq σ] (ctx : MachineCtx σ ω) :
    ∀ (s : σ) (o : ω) (line : String) (rest : List String) (msg : String),
      s ≠ ctx.endState →
      (ctx.action s line o = .error msg →
        runParser ctx s o (line :: rest) = .error (.wrapped (wrapMsg msg ctx.filePath)) ∧
        (runLoop ctx s o (line :: rest)).1 = [.actionCall s line]) ∧
      (∀ o', ctx.action s line o = .ok o' → ctx.next s line = .error msg →
        runParser ctx s o (line :: rest) = .error (.wrapped (wrapMsg msg ctx.filePath)) ∧
        (runLoop ctx s o (line :: rest)).1 = [.actionCall s line, .nextCall s line]) := by
  intro s o line rest msg hs
  constructor
  · intro ha
    rw [runLoop_action_error ctx hs ha]
    exact ⟨runParser_loop_error ctx (by rw [runLoop_action_error ctx hs ha]), rfl⟩
  · intro o' ha hn
    rw [runLoop_next_error ctx hs ha hn]
    exact ⟨runParser_loop_error ctx (by rw [runLoop_next_error ctx hs ha hn]), rfl⟩

/-- A format definition whose action always throws "boom". -/
def failingActionCtx : MachineCtx Bool String where
  action := fun _ _ _ => .error "boom"
  next := fun _ _ => .ok true
  endState := true
  filePath := "h.pdf"
  getFilePath := fun _ => "h.pdf"
  getAccountSuffix := fun _ => "1234"

/-- A format definition whose transition always throws "bang". -/
def failingNextCtx : MachineCtx Bool String where
  action := fun _ _ o => .ok o
  next := fun _ _ => .error "bang"
  endState := true
  filePath := "k.pdf"
  getFilePath := fun _ => "k.pdf"
  getAccountSuffix := fun _ => "1234"

/-- Witness for `c6_error_wrapping` at two concrete machines, one failing
in the action and one in the transition. -/
theorem c6_witness :
    (runParser failingActionCtx false "o" ["x", "y"] =
        .error (.wrapped (wrapMsg "boom" "h.pdf")) ∧
      (runLoop failingActionCtx false "o" ["x", "y"]).1 = [.actionCall false "x"]) ∧
    (runParser failingNextCtx false "o" ["x", "y"] =
        .error (.wrapped (wrapMsg "bang" "k.pdf")) ∧
      (runLoop failingNextCtx false "o" ["x", "y"]).1 =
        [.actionCall false "x", .nextCall false "x"]) :=
  ⟨(c6_error_wrapping failingActionCtx false "o" "x" ["y"] "boom" (by decide)).1 rfl,
   (c6_error_wrapping failingNextCtx false "o" "x" ["y"] "bang" (by decide)).2 "o" rfl rfl⟩

/-! ## Claim C7 — the loop stops at the end state -/

/-- Claim C7. Once the state is the end state the loop performs no calls at
all and leaves every remaining line unconsumed; consequently, appending
extra lines after a prefix on which the run already terminated changes
neither the call trace nor the final output — the extra lines only extend
the unconsumed remainder. -/
theorem c7_stops_at_end_state [DecidableEq σ] (ctx : MachineCtx σ ω) :
    (∀ (o : ω) (lines : List String), runLoop ctx ctx.endState o lines = ([], .ok (o, lines))) ∧
    (∀ (p : List String) (s : σ) (o : ω) (tr : List (EngineEvent σ)) (out : ω)
        (left rest : List String),
        runLoop ctx s o p = (tr, .ok (out, left)) →
        runLoop ctx s o (p ++ rest) = (tr, .ok (out, left ++ rest))) := by
  constructor
  · intro o lines
    exact runLoop_end ctx o lines
  · intro p
    induction p with
    | nil =>
      intro s o tr out left rest h
      by_cases hs : s = ctx.endState
      · subst hs
        rw [runLoop_end] at h
        simp at h
        obtain ⟨h1, h2, h3⟩ := h
        subst h1; subst h2; subst h3
        simpa using runLoop_end ctx o rest
      · rw [runLoop_nil ctx o hs] at h
        simp at h
    | cons line p' ih =>
      intro s o tr out left rest h
      by_cases hs : s = ctx.endState
      · subst hs
        rw [runLoop_end] at h
        simp at h
        obtain ⟨h1, h2, h3⟩ := h
        subst h1; subst h2; subst h3
        exact runLoop_end ctx o ((line :: p') ++ rest)
      · cases ha : ctx.action s line o with
        | error msg => rw [runLoop_action_error ctx hs ha] at h; simp at h
        | ok o' =>
          cases hn : ctx.next s line with
          | error msg => rw [runLoop_next_error ctx hs ha hn] at h; simp at h
          | ok s' =>
            rw [runLoop_step ctx hs ha hn] at h
            simp at h
            obtain ⟨h1, h2⟩ := h
            have hpair : runLoop ctx s' o' p' = ((runLoop ctx s' o' p').1, .ok (out, left)) := by
              rw [← h2]
            have := ih s' o' (runLoop ctx s' o' p').1 out left rest hpair
            show runLoop ctx s o (line :: (p' ++ rest)) = _
            rw [runLoop_step ctx hs ha hn, this]
            simp [← h1]

/-- Witness for `c7_stops_at_end_state` at a concrete machine: starting in
the end state nothing is consumed, and appending a line after a finished
prefix leaves trace and output unchanged. -/
theorem c7_witness :
    runLoop idleCtx true "o" ["u", "v"] = ([], .ok ("o", ["u", "v"])) ∧
    runLoop idleCtx false "o" (["a"] ++ ["z"]) =
      ([.actionCall false "a", .nextCall false "a"], .ok ("o", ["z"])) :=
  ⟨(c7_stops_at_end_state idleCtx).1 "o" ["u", "v"],
   (c7_stops_at_end_state idleCtx).2 ["a"] false "o"
     [.actionCall false "a", .nextCall false "a"] "o" [] ["z"] rfl⟩

/-! ## Claim C4 — option layering

JavaScript object spread is modelled on partial option maps `F → Option V`
(`none` = field absent): `{...lo, ...hi}` keeps a field of `hi` when
present and falls back to `lo`. -/

/-- Object spread `{...lo, ...hi}` restricted to field presence. -/
def spreadOver {F V : Type} (lo hi : F → Option V) : F → Option V :=
  fun f =>
    match hi f with
    | some v => some v
    | none => lo f

/-- Modelled from the spec: `collapseDefaultParserOptions` — its source file
(`parser-options.ts`) is not in the repository snapshot; §4.1 of the spec
says the resolved defaults are the base defaults when the format declares
no extra fields, and otherwise the format-specific defaults (required
fully populated by the type-level contract) overlaid on the base set. -/
def collapseDefaultParserOptions {F V : Type} (base : F → Option V)
    (formatDefaults : Option (F → Option V)) : F → Option V :=
  spreadOver base (formatDefaults.getD (fun _ => none))

/-- The engine's option resolution (`parser-state-machine.ts` lines 80-86):
`parserOptions = { ...collapseDefaultParserOptions(defaultParserOptions),
...(inputParserOptions ?? {}) }`. -/
def resolveParserOptions {F V : Type} (base : F → Option V)
    (formatDefaults inputParserOptions : Option (F → Option V)) : F → Option V :=
  spreadOver (collapseDefaultParserOptions base formatDefaults)
    (inputParserOptions.getD (fun _ => none))

/-- Claim C4. Per option field: a present caller override always wins; with
no caller override a present format default wins; with neither, the
resolved value is the base default (precedence: caller override >
format default > base default). -/
theorem c4_option_precedence {F V : Type} (base : F → Option V)
    (fd ipo : Option (F → Option V)) (f : F) :
    (∀ v, (ipo.getD (fun _ => none)) f = some v →
        resolveParserOptions base fd ipo f = some v) ∧
    ((ipo.getD (fun _ => none)) f = none →
      ∀ w, (fd.getD (fun _ => none)) f = some w →
        resolveParserOptions base fd ipo f = some w) ∧
    ((ipo.getD (fun _ => none)) f = none →
      (fd.getD (fun _ => none)) f = none →
        resolveParserOptions base fd ipo f = base f) := by
  refine ⟨?_, ?_, ?_⟩
  · intro v hv
    simp [resolveParserOptions, spreadOver, hv]
  · intro hnone w hw
    simp [resolveParserOptions, collapseDefaultParserOptions, spreadOver, hnone, hw]
  · intro h1 h2
    simp [resolveParserOptions, collapseDefaultParserOptions, spreadOver, h1, h2]

/-- Base-layer defaults with a single populated field, value 20. -/
def baseDemoOptions : String → Option Nat :=
  fun f => if f = "yearPrefix" then some 20 else none

/-- Format-layer defaults assigning the conflicting value 19. -/
def formatDemoDefaults : String → Option Nat :=
  fun f => if f = "yearPrefix" then some 19 else none

/-- Caller overrides assigning the conflicting value 18. -/
def callerDemoOverrides : String → Option Nat :=
  fun f => if f = "yearPrefix" then some 18 else none

/-- Witness for `c4_option_precedence` on three conflicting layers. -/
theorem c4_witness :
    resolveParserOptions baseDemoOptions (some formatDemoDefaults)
      (some callerDemoOverrides) "yearPrefix" = some 18 ∧
    resolveParserOptions baseDemoOptions (some formatDemoDefaults)
      none "yearPrefix" = some 19 ∧
    resolveParserOptions baseDemoOptions none none "yearPrefix" = some 20 :=
  ⟨(c4_option_precedence baseDemoOptions (some formatDemoDefaults)
      (some callerDemoOverrides) "yearPrefix").1 18 rfl,
   (c4_option_precedence baseDemoOptions (some formatDemoDefaults)
      none "yearPrefix").2.1 rfl 19 rfl,
   (c4_option_precedence baseDemoOptions none none "yearPrefix").2.2 rfl rfl⟩

/-! ## Claim C5 — registration-time validation of format defaults -/

/-- Untyped view of the registration-time inputs of `createStatementParser`
(`statement-parser.ts` lines 20-29): which option fields the format
introduces beyond the base set, and the (possibly partial) table of
defaults it supplies for them. In the TypeScript source exhaustiveness of
that table is a compile-time obligation
(`Readonly<Required<ParserOptions>>`, `parser-state-machine.ts` lines
32-37), which an untyped model must leave unconstrained. -/
structure CreateStatementParserInputModel where
  introducedOptionFields : List String
  defaultParserOptions : List (String × Int)
  parserKeywords : List String

/-- The record `createStatementParser` returns (`statement-parser.ts`
lines 85-91), minus the parse closure itself. -/
structure StatementParserModel where
  parserKeywords : List String
  defaultParserOptions : List (String × Int)
deriving DecidableEq, Repr

/-- Registration-time behaviour of `createStatementParser`
(`statement-parser.ts` lines 39-92): it merges the default
`pdfProcessing`, builds the parse closure and returns the
`StatementParser` record. It performs no validation of the supplied
defaults and cannot throw here — the only `throw` ("Missing pdf
processing method") lives inside the returned closure and fires at parse
time. `Except` makes the absence of a registration-time error explicit. -/
def createStatementParser (raw : CreateStatementParserInputModel) :
    Except String StatementParserModel :=
  .ok { parserKeywords := raw.parserKeywords, defaultParserOptions := raw.defaultParserOptions }

/-- Claim C5, amended. Even when a format definition introduces an option
field and supplies no default for it, `createStatementParser` raises no
configuration error — registration always succeeds; the exhaustiveness of
format defaults is enforced only by the TypeScript type system at compile
time, not by any runtime check at registration (or parse) time. -/
theorem c5_no_registration_validation :
    ∀ (raw : CreateStatementParserInputModel) (f : String),
      f ∈ raw.introducedOptionFields →
      raw.defaultParserOptions.lookup f = none →
      (createStatementParser raw).isOk = true := by
  intro raw f _ _
  rfl

/-- A format definition introducing the option field "extraField" while
supplying no default for it. -/
def badFormatInput : CreateStatementParserInputModel where
  introducedOptionFields := ["extraField"]
  defaultParserOptions := []
  parserKeywords := []

/-- Claim C5, counterexample to the claim as stated: registering a format
definition that omits a default for an introduced option field raises no
configuration error — `createStatementParser` returns the parser record. -/
theorem c5_counterexample :
    "extraField" ∈ badFormatInput.introducedOptionFields ∧
    badFormatInput.defaultParserOptions.lookup "extraField" = none ∧
    createStatementParser badFormatInput =
      .ok { parserKeywords := [], defaultParserOptions := [] } := by
  refine ⟨?_, rfl, rfl⟩
  simp [badFormatInput]

/-- Witness for `c5_no_registration_validation` at the concrete bad format. -/
theorem c5_witness :
    (createStatementParser badFormatInput).isOk = true :=
  c5_no_registration_validation badFormatInput "extraField" (by simp [badFormatInput]) rfl

/-! ## Further loop lemmas used by the concrete PayPal run -/

theorem runLoop_step_snd [DecidableEq σ] (ctx : MachineCtx σ ω) {s s' : σ} {o o' : ω}
    {line : String} {rest : List String}
    (h : s ≠ ctx.endState) (ha : ctx.action s line o = .ok o')
    (hn : ctx.next s line = .ok s') :
    (runLoop ctx s o (line :: rest)).2 = (runLoop ctx s' o' rest).2 := by
  rw [runLoop_step ctx h ha hn]

theorem runLoop_end_snd [DecidableEq σ] (ctx : MachineCtx σ ω) {s : σ} (o : ω)
    (lines : List String) (h : s = ctx.endState) :
    (runLoop ctx s o lines).2 = .ok (o, lines) := by
  subst h
  rw [runLoop_end]

/-! ## A small JavaScript regular-expression engine

The PayPal format definition (`paypal-parser.ts` lines 23-30) uses four
concrete regular expressions in which every quantifier (`*`, `+`, `?`,
`{m,n}`, lazy `+?`) applies to a single-character class (`.`, `\w`, `\d`,
`\s`, a literal character or a bracket class). The engine below implements
exactly this fragment with JavaScript's backtracking order: greedy
quantifiers try the longest repetition first, lazy ones the shortest, and
an unanchored pattern is tried at each start offset left to right. -/

/-- Single-character matchers: `.` (not a line terminator), `\w`, `\d`,
`\s`, a literal character, and alternatives inside a bracket class. -/
inductive CharCls where
  | dot
  | word
  | digit
  | space
  | ch (c : Char)
  | union (a b : CharCls)

def CharCls.matchesChar : CharCls → Char → Bool
  | .dot, c => c != '\n' && c != '\r'
  | .word, c => c.isAlphanum || c == '_'
  | .digit, c => c.isDigit
  | .space, c => c == ' ' || c == '\t' || c == '\n' || c == '\r' || c == '\x0b' || c == '\x0c'
  | .ch a, c => a == c
  | .union a b, c => a.matchesChar c || b.matchesChar c

/-- One element of a pattern: a literal string, a single class occurrence,
a quantified class (`minCount` to `maxCount` repetitions, `none` =
unbounded, `lazyMatch` = shortest first), or a capture-group boundary. -/
inductive RItem where
  | lit (s : List Char)
  | cls (c : CharCls)
  | rep (c : CharCls) (minCount : Nat) (maxCount : Option Nat) (lazyMatch : Bool)
  | grpStart (n : Nat)
  | grpEnd (n : Nat)

/-- Matcher state: current position in the subject and the capture-group
boundaries opened and closed so far. -/
structure MatchState where
  pos : Nat
  opened : List (Nat × Nat)
  closed : List (Nat × Nat × Nat)

def litMatches (ci : Bool) : List Char → List Char → Option (List Char)
  | [], input => some input
  | _ :: _, [] => none
  | c :: cs, d :: ds =>
    if (if ci then c.toLower == d.toLower else c == d) then litMatches ci cs ds else none

/-- Length of the maximal prefix of the input matching the class. -/
def classRun (c : CharCls) : List Char → Nat
  | [] => 0
  | d :: ds => if c.matchesChar d then classRun c ds + 1 else 0

def firstSome {α : Type} (f : Nat → Option α) : List Nat → Option α
  | [] => none
  | k :: ks =>
    match f k with
    | some r => some r
    | none => firstSome f ks

/-- The backtracking matcher. A quantified class matching `k` repetitions
consumes exactly `k` consecutive class characters, so trying every `k`
between the minimum and the maximal run — descending for greedy,
ascending for lazy — reproduces the JavaScript engine's search order on
this fragment. -/
def matchItems (ci endAnchor : Bool) : List RItem → List Char → MatchState → Option MatchState
  | [], input, st => if endAnchor then (if input.isEmpty then some st else none) else some st
  | .lit s :: rest, input, st =>
    match litMatches ci s input with
    | some remaining => matchItems ci endAnchor rest remaining { st with pos := st.pos + s.length }
    | none => none
  | .cls c :: rest, input, st =>
    match input with
    | [] => none
    | d :: ds =>
      if c.matchesChar d then matchItems ci endAnchor rest ds { st with pos := st.pos + 1 }
      else none
  | .rep c mn mx lz :: rest, input, st =>
    let cap := match mx with
      | none => classRun c input
      | some m => min m (classRun c input)
    if cap < mn then none
    else
      let ks := if lz then List.range' mn (cap - mn + 1)
        else (List.range' mn (cap - mn + 1)).reverse
      firstSome
        (fun k => matchItems ci endAnchor rest (input.drop k) { st with pos := st.pos + k }) ks
  | .grpStart n :: rest, input, st =>
    matchItems ci endAnchor rest input { st with opened := (n, st.pos) :: st.opened }
  | .grpEnd n :: rest, input, st =>
    match st.opened.find? (fun p => p.1 == n) with
    | some (_, sp) =>
      matchItems ci endAnchor rest input { st with closed := (n, sp, st.pos) :: st.closed }
    | none => none

/-- A whole pattern: its elements, anchoring, the `i` flag, and how many
capture groups it declares. -/
structure Regex where
  items : List RItem
  anchorStart : Bool
  anchorEnd : Bool
  ci : Bool
  numGroups : Nat

/-- Leftmost-match search: try each start offset in order (only offset 0
when the pattern is `^`-anchored). -/
def regexSearchFrom (r : Regex) : List Char → Nat → Option (Nat × MatchState)
  | input, startPos =>
    match matchItems r.ci r.anchorEnd r.items input
        { pos := startPos, opened := [], closed := [] } with
    | some st => some (startPos, st)
    | none =>
      if r.anchorStart then none
      else
        match input with
        | [] => none
        | _ :: ds => regexSearchFrom r ds (startPos + 1)

def sliceStr (cs : List Char) (a b : Nat) : String :=
  String.mk ((cs.drop a).take (b - a))

/-- JavaScript `line.match(r)` (no `g` flag): `none` when there is no
match, otherwise the list whose head is the full match and whose element
`i` (1-based) is capture group `i`. -/
def regexMatch (r : Regex) (s : String) : Option (List String) :=
  match regexSearchFrom r s.data 0 with
  | none => none
  | some (startPos, st) =>
    some (sliceStr s.data startPos st.pos ::
      (List.range' 1 r.numGroups).map (fun i =>
        match st.closed.find? (fun p => p.1 == i) with
        | some (_, sp, ep) => sliceStr s.data sp ep
        | none => ""))

/-! ## The PayPal format definition's regular expressions
(`paypal-parser.ts` lines 23-30) -/

/-- The bracket class `[-,.\d]`. -/
def amtChar : CharCls := .union (.ch '-') (.union (.ch ',') (.union (.ch '.') .digit))

/-- `/^page\s+\d+$/i` (`pageEndRegExp`). -/
def pageEndRegExp : Regex where
  items := [.lit "page".data, .rep .space 1 none false, .rep .digit 1 none false]
  anchorStart := true
  anchorEnd := true
  ci := true
  numGroups := 0

/-- `/date\s+description\s+currency\s+amount\s+fees\s+total/i`
(`activityHeader`). -/
def activityHeader : Regex where
  items := [.lit "date".data, .rep .space 1 none false, .lit "description".data,
    .rep .space 1 none false, .lit "currency".data, .rep .space 1 none false,
    .lit "amount".data, .rep .space 1 none false, .lit "fees".data,
    .rep .space 1 none false, .lit "total".data]
  anchorStart := false
  anchorEnd := false
  ci := true
  numGroups := 0

/-- The twice-repeated sub-pattern `(\w{1,3} \d{1,2},? \d{1,4})` of
`headerDataLineRegExp`, as capture group `g`. -/
def namedDateItems (g : Nat) : List RItem :=
  [.grpStart g, .rep .word 1 (some 3) false, .lit [' '], .rep .digit 1 (some 2) false,
   .rep (.ch ',') 0 (some 1) false, .lit [' '], .rep .digit 1 (some 4) false, .grpEnd g]

/-- `/(\w{1,3} \d{1,2},? \d{1,4})\s*-\s*(\w{1,3} \d{1,2},? \d{1,4})\s*(.+)$/`
(`headerDataLineRegExp`, no flags). -/
def headerDataLineRegExp : Regex where
  items := namedDateItems 1 ++
    [.rep .space 0 none false, .lit ['-'], .rep .space 0 none false] ++
    namedDateItems 2 ++
    [.rep .space 0 none false, .grpStart 3, .rep .dot 1 none false, .grpEnd 3]
  anchorStart := false
  anchorEnd := true
  ci := false
  numGroups := 3

/-- `/^(\d{1,2}\/\d{1,2}\/\d{1,4})\s+(.+?)USD\s+([-,.\d]+)\s+([-,.\d]+)\s+([-,.\d]+)$/i`
(`transactionStartRegExp`, built with `ParsingTriggers.Usd = "USD"`
interpolated; group 2 is lazy). -/
def transactionStartRegExp : Regex where
  items := [.grpStart 1, .rep .digit 1 (some 2) false, .lit ['/'], .rep .digit 1 (some 2) false,
    .lit ['/'], .rep .digit 1 (some 4) false, .grpEnd 1, .rep .space 1 none false,
    .grpStart 2, .rep .dot 1 none true, .grpEnd 2, .lit "USD".data,
    .rep .space 1 none false, .grpStart 3, .rep amtChar 1 none false, .grpEnd 3,
    .rep .space 1 none false, .grpStart 4, .rep amtChar 1 none false, .grpEnd 4,
    .rep .space 1 none false, .grpStart 5, .rep amtChar 1 none false, .grpEnd 5]
  anchorStart := true
  anchorEnd := true
  ci := true
  numGroups := 5

/-! ## String, number and date helpers used by the PayPal parser

The augment modules (`augments/string.ts`, `augments/date.ts`) are not in
the repository snapshot; the helpers below are modelled from the spec (§3,
§8) and the expected behaviour visible at their call sites. All are
written over character lists so that proofs can evaluate them. -/

/-- Splits at every character satisfying `p`, keeping empty tokens, like
JavaScript `String.prototype.split`. -/
def splitChars (p : Char → Bool) : List Char → List (List Char)
  | [] => [[]]
  | c :: rest =>
    let r := splitChars p rest
    if p c then [] :: r
    else
      match r with
      | [] => [[c]]
      | t :: ts => (c :: t) :: ts

def joinWithSpace : List (List Char) → List Char
  | [] => []
  | [w] => w
  | w :: ws => w ++ ' ' :: joinWithSpace ws

def trimChars (cs : List Char) : List Char :=
  ((cs.dropWhile Char.isWhitespace).reverse.dropWhile Char.isWhitespace).reverse

/-- ASCII lower-casing, as JavaScript `toLowerCase` on these inputs. -/
def lowerStr (s : String) : String :=
  String.mk (s.data.map Char.toLower)

/-- Modelled from the spec: `collapseSpaces` (from the out-of-scope string
augments) collapses whitespace runs to single spaces and trims — §8's
scenario maps the raw capture "Coffee Shop " to the stored description
"Coffee Shop". -/
def collapseSpaces (s : String) : String :=
  String.mk (joinWithSpace ((splitChars Char.isWhitespace s.data).filter (fun w => !w.isEmpty)))

/-- Modelled from the spec: `sanitizeNumberString` (out-of-scope string
augments) strips the grouping commas admitted by the `[-,.\d]+` amount
captures before `Number` conversion. -/
def sanitizeNumberString (s : String) : String :=
  String.mk (s.data.filter (fun c => c ≠ ','))

/-- A JavaScript number as the parser observes it: an exact value or NaN. -/
inductive JsNum where
  | nan
  | num (q : ℚ)
deriving DecidableEq, Repr

/-- `Math.abs`: NaN stays NaN. -/
def JsNum.abs : JsNum → JsNum
  | nan => nan
  | num q => num (if q < 0 then -q else q)

/-- The comparison `x < 0`; false for NaN, as in JavaScript. -/
def JsNum.isNeg : JsNum → Bool
  | nan => false
  | num q => decide (q < 0)

def digitsToNat (ds : List Char) : Nat :=
  ds.foldl (fun a c => a * 10 + (c.toNat - 48)) 0

def pow10 : Nat → Nat
  | 0 => 1
  | n + 1 => 10 * pow10 n

def jsNumVal (sign : Bool) (ip fp : List Char) : ℚ :=
  (if sign then -1 else 1) *
    mkRat (digitsToNat ip * pow10 fp.length + digitsToNat fp) (pow10 fp.length)

/-- JavaScript `Number(s)` on the decimal fragment reachable from the
`[-,.\d]+` captures after comma-stripping: optional sign, integer and/or
fraction digits; the empty (trimmed) string is 0; anything else — a stray
sign, a second dot, a misplaced minus — is NaN. Exponents, hex and
infinities cannot occur in that fragment and are not modelled. -/
def jsNumber (s : String) : JsNum :=
  match trimChars s.data with
  | [] => .num 0
  | cs =>
    let signAndRest : Bool × List Char :=
      match cs with
      | '-' :: rest => (true, rest)
      | '+' :: rest => (false, rest)
      | _ => (false, cs)
    let sign := signAndRest.1
    let cs1 := signAndRest.2
    let ip := cs1.takeWhile Char.isDigit
    match cs1.dropWhile Char.isDigit with
    | [] => if ip.isEmpty then .nan else .num (jsNumVal sign ip [])
    | '.' :: rest2 =>
      let fp := rest2.takeWhile Char.isDigit
      if (rest2.dropWhile Char.isDigit).isEmpty && !(ip.isEmpty && fp.isEmpty) then
        .num (jsNumVal sign ip fp)
      else .nan
    | _ => .nan

/-- A calendar date, the observable content of the JavaScript `Date`
objects the date helpers build. -/
structure JsDate where
  year : Nat
  month : Nat
  day : Nat
deriving DecidableEq, Repr

def monthNum (s : String) : Option Nat :=
  match lowerStr s with
  | "jan" => some 1
  | "feb" => some 2
  | "mar" => some 3
  | "apr" => some 4
  | "may" => some 5
  | "jun" => some 6
  | "jul" => some 7
  | "aug" => some 8
  | "sep" => some 9
  | "oct" => some 10
  | "nov" => some 11
  | "dec" => some 12
  | _ => none

/-- Modelled from the spec: `dateFromSlashFormat` (out-of-scope date
augments) reads `month/day/year`; the PayPal parser calls it without a
year prefix, so the year digits are taken as given. `none` is the invalid
date. -/
def dateFromSlashFormat (s : String) : Option JsDate :=
  match splitChars (fun c => c == '/') s.data with
  | [m, d, y] =>
    if !m.isEmpty && !d.isEmpty && !y.isEmpty && (m ++ d ++ y).all Char.isDigit then
      some ⟨digitsToNat y, digitsToNat m, digitsToNat d⟩
    else none
  | _ => none

/-- Modelled from the spec: `dateFromNamedCommaFormat` (out-of-scope date
augments) reads `Mon D, YYYY` as captured by `(\w{1,3} \d{1,2},? \d{1,4})`
— §8's scenario maps "Jan 1, 2021" to 2021-01-01. -/
def dateFromNamedCommaFormat (s : String) : Option JsDate :=
  match (splitChars (fun c => c == ' ') s.data).filter (fun w => !w.isEmpty) with
  | [mon, dayRaw, y] =>
    let day := dayRaw.filter (fun c => c ≠ ',')
    match monthNum (String.mk mon) with
    | some m =>
      if !day.isEmpty && !y.isEmpty && (day ++ y).all Char.isDigit then
        some ⟨digitsToNat y, m, digitsToNat day⟩
      else none
    | none => none
  | _ => none

/-! ## The PayPal format definition (`paypal-parser.ts`) -/

/-- The state enumeration (`paypal-parser.ts` lines 7-15). -/
inductive State where
  | Header
  | HeaderData
  | Activity
  | ExpenseInside
  | IncomeInside
  | ActivityHeader
  | End
deriving DecidableEq, Repr

/-- `PaypalTransaction` (`paypal-parser.ts` lines 32-35): the base
`ParsedTransaction` fields plus `baseAmount` and `fees`. -/
structure PaypalTransaction where
  date : Option JsDate
  description : String
  amount : JsNum
  fees : JsNum
  baseAmount : JsNum
  originalText : List String
deriving DecidableEq, Repr

/-- `PaypalOutput = ParsedOutput<PaypalTransaction>` with the `ParsedOutput`
fields of the spec's §3 data model. -/
structure PaypalOutput where
  incomes : List PaypalTransaction
  expenses : List PaypalTransaction
  filePath : String
  yearPrefix : Int
  accountSuffix : String
  startDate : Option JsDate
  endDate : Option JsDate
deriving DecidableEq, Repr

/-- `performStateAction` (`paypal-parser.ts` lines 47-85). The source
mutates `output` in place and returns it; the model returns the updated
record, which is observationally the same for the engine. Reading
`expenses[expenses.length - 1]` on an empty list is the JavaScript
TypeError, modelled as a thrown error. -/
def performStateAction (currentState : State) (line : String) (output : PaypalOutput) :
    Except String PaypalOutput :=
  if currentState = .HeaderData ∧ output.startDate = none then
    match regexMatch headerDataLineRegExp line with
    | some gs =>
      .ok { output with
        startDate := dateFromNamedCommaFormat (gs.getD 1 "")
        endDate := dateFromNamedCommaFormat (gs.getD 2 "")
        accountSuffix := gs.getD 3 "" }
    | none => .ok output
  else if currentState = .Activity then
    match regexMatch transactionStartRegExp line with
    | some gs =>
      let amount := jsNumber (sanitizeNumberString (gs.getD 3 ""))
      let newTransaction : PaypalTransaction := {
        date := dateFromSlashFormat (gs.getD 1 "")
        description := collapseSpaces (gs.getD 2 "")
        amount := (jsNumber (sanitizeNumberString (gs.getD 5 ""))).abs
        fees := (jsNumber (sanitizeNumberString (gs.getD 4 ""))).abs
        baseAmount := amount.abs
        originalText := [line] }
      if amount.isNeg then
        .ok { output with expenses := output.expenses ++ [newTransaction] }
      else
        .ok { output with incomes := output.incomes ++ [newTransaction] }
    | none => .ok output
  else if currentState = .ExpenseInside ∧ line ≠ "" then
    match output.expenses.getLast? with
    | some lastExpense =>
      .ok { output with expenses := output.expenses.dropLast ++
        [{ lastExpense with
            description := lastExpense.description ++ "\n" ++ collapseSpaces line
            originalText := lastExpense.originalText ++ [line] }] }
    | none => .error "TypeError: Cannot read properties of undefined"
  else if currentState = .IncomeInside ∧ line ≠ "" then
    match output.incomes.getLast? with
    | some lastIncome =>
      .ok { output with incomes := output.incomes.dropLast ++
        [{ lastIncome with
            description := lastIncome.description ++ "\n" ++ collapseSpaces line
            originalText := lastIncome.originalText ++ [line] }] }
    | none => .error "TypeError: Cannot read properties of undefined"
  else
    .ok output

/-- `nextState` (`paypal-parser.ts` lines 87-136): the line is lower-cased
first; `ParsingTriggers.MustNotify` ends the machine from any state; in
`Activity`, group 5 (the total column) of a matching transaction line
selects `ExpenseInside` versus `IncomeInside`. -/
def nextState (currentState : State) (rawLine : String) : State :=
  let line := lowerStr rawLine
  if strIncludes line "you must notify us no later than" then .End
  else
    match currentState with
    | .Header =>
      if strIncludes line "statement period" then .HeaderData
      else if (regexMatch activityHeader line).isSome then .ActivityHeader
      else .Header
    | .ActivityHeader => if line = "" then .Activity else .ActivityHeader
    | .HeaderData => .Header
    | .ExpenseInside => if line = "" then .Activity else .ExpenseInside
    | .IncomeInside => if line = "" then .Activity else .IncomeInside
    | .Activity =>
      match regexMatch transactionStartRegExp line with
      | some gs =>
        if (jsNumber (sanitizeNumberString (gs.getD 5 ""))).isNeg then .ExpenseInside
        else .IncomeInside
      | none =>
        if (regexMatch pageEndRegExp line).isSome then .Header else .Activity
    | .End => .End

/-- The PayPal format definition as engine inputs (`paypal-parser.ts`
lines 39-45): `initialState Header`, `endState End`, the action and next
functions above; its transition function never throws. -/
def paypalCtx (filePath : String) : MachineCtx State PaypalOutput where
  action := fun s line o => performStateAction s line o
  next := fun s line => .ok (nextState s line)
  endState := .End
  filePath := filePath
  getFilePath := PaypalOutput.filePath
  getAccountSuffix := PaypalOutput.accountSuffix

/-- The engine's `startingOutput` scaffold (`parser-state-machine.ts`
lines 88-96) for the PayPal format, which supplies no `initOutput`. -/
def paypalStartingOutput (filePath : String) (yearPrefix : Int) : PaypalOutput where
  incomes := []
  expenses := []
  filePath := filePath
  yearPrefix := yearPrefix
  accountSuffix := ""
  startDate := none
  endDate := none

/-- One full PayPal parse over an in-memory line list: the state machine
built from the PayPal format definition, run from `Header` on the scaffold. -/
def parsePaypal (filePath : String) (yearPrefix : Int) (lines : List String) :
    Except EngineError PaypalOutput :=
  runParser (paypalCtx filePath) .Header (paypalStartingOutput filePath yearPrefix) lines

/-! ## Claim C9 — the concrete PayPal scenario -/

/-- The eight input lines of the spec's §8 concrete scenario. -/
def c9Lines : List String :=
  ["header", "statement period", "Jan 1, 2021 - Jan 31, 2021 1234",
   "date description currency amount fees total", "",
   "1/5/2021 Coffee Shop USD -4.50 0.00 -4.50", "",
   "you must notify us no later than ..."]

def c9Start : PaypalOutput := paypalStartingOutput "statement.pdf" 20

/-- The output after the header-data line: statement period
2021-01-01 to 2021-01-31, account suffix "1234". -/
def c9AfterHeader : PaypalOutput :=
  { c9Start with
    startDate := some ⟨2021, 1, 1⟩
    endDate := some ⟨2021, 1, 31⟩
    accountSuffix := "1234" }

/-- The single expected expense transaction: 2021-01-05, "Coffee Shop",
amount 4.50, fees 0.00, base amount 4.50. -/
def c9Tx : PaypalTransaction where
  date := some ⟨2021, 1, 5⟩
  description := "Coffee Shop"
  amount := .num (mkRat 9 2)
  fees := .num 0
  baseAmount := .num (mkRat 9 2)
  originalText := ["1/5/2021 Coffee Shop USD -4.50 0.00 -4.50"]

/-- The expected final output: exactly one expense, zero incomes, account
suffix "1234", statement period 2021-01-01 to 2021-01-31. -/
def c9ExpectedOutput : PaypalOutput := { c9AfterHeader with expenses := [c9Tx] }

/-- Claim C9. Parsing the spec's §8 scenario lines with the PayPal format
definition succeeds and produces exactly one expense transaction
(description "Coffee Shop", amount 4.50 = 9/2, fees 0, base amount 4.50,
date 2021-01-05), zero incomes, account suffix "1234", start date
2021-01-01 and end date 2021-01-31. -/
theorem c9_paypal_concrete_scenario :
    parsePaypal "statement.pdf" 20 c9Lines = .ok c9ExpectedOutput := by
  have haNoop : ∀ (l : String) (o : PaypalOutput), performStateAction .Header l o = .ok o := by
    intro l o
    simp +decide [performStateAction]
  have haAH : ∀ o : PaypalOutput, performStateAction .ActivityHeader "" o = .ok o := by
    intro o
    simp +decide [performStateAction]
  have haEI : ∀ o : PaypalOutput, performStateAction .ExpenseInside "" o = .ok o := by
    intro o
    simp +decide [performStateAction]
  have ha2 : performStateAction .HeaderData "Jan 1, 2021 - Jan 31, 2021 1234" c9Start =
      .ok c9AfterHeader := by
    simp +decide [performStateAction, c9Start, c9AfterHeader, paypalStartingOutput,
      regexMatch, regexSearchFrom, matchItems, litMatches, classRun, firstSome, sliceStr,
      headerDataLineRegExp, namedDateItems, CharCls.matchesChar, dateFromNamedCommaFormat,
      splitChars, monthNum, lowerStr, digitsToNat]
  have ha5 : performStateAction .Activity "1/5/2021 Coffee Shop USD -4.50 0.00 -4.50"
      c9AfterHeader = .ok c9ExpectedOutput := by
    simp +decide [performStateAction, c9AfterHeader, c9ExpectedOutput, c9Tx, c9Start,
      paypalStartingOutput, regexMatch, regexSearchFrom, matchItems, litMatches, classRun,
      firstSome, sliceStr, transactionStartRegExp, amtChar, CharCls.matchesChar,
      dateFromSlashFormat, splitChars, collapseSpaces, joinWithSpace, sanitizeNumberString,
      jsNumber, jsNumVal, trimChars, digitsToNat, pow10, JsNum.abs, JsNum.isNeg]
  have ha7 : performStateAction .Activity "you must notify us no later than ..."
      c9ExpectedOutput = .ok c9ExpectedOutput := by
    simp +decide [performStateAction, regexMatch, regexSearchFrom, matchItems, litMatches,
      classRun, firstSome, sliceStr, transactionStartRegExp, amtChar, CharCls.matchesChar]
  have hn0 : nextState .Header "header" = .Header := by
    simp +decide [nextState, lowerStr, strIncludes, strIncludesAux, regexMatch,
      regexSearchFrom, matchItems, litMatches, classRun, firstSome, activityHeader, sliceStr,
      CharCls.matchesChar]
  have hn1 : nextState .Header "statement period" = .HeaderData := by
    simp +decide [nextState, lowerStr, strIncludes, strIncludesAux]
  have hn2 : nextState .HeaderData "Jan 1, 2021 - Jan 31, 2021 1234" = .Header := by
    simp +decide [nextState, lowerStr, strIncludes, strIncludesAux]
  have hn3 : nextState .Header "date description currency amount fees total" =
      .ActivityHeader := by
    simp +decide [nextState, lowerStr, strIncludes, strIncludesAux, regexMatch,
      regexSearchFrom, matchItems, litMatches, classRun, firstSome, activityHeader, sliceStr,
      CharCls.matchesChar]
  have hn4 : nextState .ActivityHeader "" = .Activity := by
    simp +decide [nextState, lowerStr, strIncludes, strIncludesAux]
  have hn5 : nextState .Activity "1/5/2021 Coffee Shop USD -4.50 0.00 -4.50" =
      .ExpenseInside := by
    simp +decide [nextState, lowerStr, strIncludes, strIncludesAux, regexMatch,
      regexSearchFrom, matchItems, litMatches, classRun, firstSome, sliceStr,
      transactionStartRegExp, amtChar, CharCls.matchesChar, sanitizeNumberString, jsNumber,
      jsNumVal, trimChars, digitsToNat, pow10, JsNum.isNeg]
  have hn6 : nextState .ExpenseInside "" = .Activity := by
    simp +decide [nextState, lowerStr, strIncludes, strIncludesAux]
  have hn7 : nextState .Activity "you must notify us no later than ..." = .End := by
    simp +decide [nextState, lowerStr, strIncludes, strIncludesAux]
  have hact : ∀ (s : State) (l : String) (o : PaypalOutput),
      (paypalCtx "statement.pdf").action s l o = performStateAction s l o :=
    fun _ _ _ => rfl
  have hnext : ∀ (s : State) (l : String),
      (paypalCtx "statement.pdf").next s l = .ok (nextState s l) :=
    fun _ _ => rfl
  have hloop : (runLoop (paypalCtx "statement.pdf") .Header c9Start c9Lines).2 =
      .ok (c9ExpectedOutput, []) := by
    simp only [c9Lines]
    rw [runLoop_step_snd (paypalCtx "statement.pdf") (by decide)
        ((hact _ _ _).trans (haNoop "header" c9Start))
        ((hnext _ _).trans (congrArg Except.ok hn0)),
      runLoop_step_snd (paypalCtx "statement.pdf") (by decide)
        ((hact _ _ _).trans (haNoop "statement period" c9Start))
        ((hnext _ _).trans (congrArg Except.ok hn1)),
      runLoop_step_snd (paypalCtx "statement.pdf") (by decide)
        ((hact _ _ _).trans ha2) ((hnext _ _).trans (congrArg Except.ok hn2)),
      runLoop_step_snd (paypalCtx "statement.pdf") (by decide)
        ((hact _ _ _).trans
          (haNoop "date description currency amount fees total" c9AfterHeader))
        ((hnext _ _).trans (congrArg Except.ok hn3)),
      runLoop_step_snd (paypalCtx "statement.pdf") (by decide)
        ((hact _ _ _).trans (haAH c9AfterHeader))
        ((hnext _ _).trans (congrArg Except.ok hn4)),
      runLoop_step_snd (paypalCtx "statement.pdf") (by decide)
        ((hact _ _ _).trans ha5) ((hnext _ _).trans (congrArg Except.ok hn5)),
      runLoop_step_snd (paypalCtx "statement.pdf") (by decide)
        ((hact _ _ _).trans (haEI c9ExpectedOutput))
        ((hnext _ _).trans (congrArg Except.ok hn6)),
      runLoop_step_snd (paypalCtx "statement.pdf") (by decide)
        ((hact _ _ _).trans ha7) ((hnext _ _).trans (congrArg Except.ok hn7))]
    exact runLoop_end_snd (paypalCtx "statement.pdf") c9ExpectedOutput [] rfl
  show runParser (paypalCtx "statement.pdf") .Header c9Start c9Lines = .ok c9ExpectedOutput
  rw [runParser_loop_ok (paypalCtx "statement.pdf") hloop, if_neg (by decide)]

/-! ## Claim C10 — sign handling in the PayPal action -/

/-- `Math.abs` output is never observed as negative (NaN included, since
JavaScript `NaN < 0` is false). -/
theorem JsNum.abs_notNeg (x : JsNum) : x.abs.isNeg = false := by
  cases x with
  | nan => rfl
  | num q =>
    by_cases h : q < 0
    · simp [JsNum.abs, JsNum.isNeg, if_pos h]
      linarith
    · simp [JsNum.abs, JsNum.isNeg, if_neg h]
      linarith [le_of_not_lt h]

/-- The stored money fields of a transaction are not negative. -/
def txNonNeg (t : PaypalTransaction) : Prop :=
  t.amount.isNeg = false ∧ t.fees.isNeg = false ∧ t.baseAmount.isNeg = false

def outputNonNeg (o : PaypalOutput) : Prop :=
  (∀ t ∈ o.expenses, txNonNeg t) ∧ (∀ t ∈ o.incomes, txNonNeg t)

/-- Claim C10, amended. Every transaction the PayPal action produces
stores absolute values: `amount`, `fees` and `baseAmount` are never
negative (the action preserves this invariant across all its branches).
But the list a new transaction is appended to is decided by the sign of
the AMOUNT column (capture group 3) — negative amount column to
`expenses`, otherwise `incomes` — not by the sign of the total column;
the total column (group 5) is used only by the transition function to
choose `ExpenseInside` versus `IncomeInside`. -/
theorem c10_abs_values_and_amount_column :
    (∀ (s : State) (line : String) (o o' : PaypalOutput),
      outputNonNeg o → performStateAction s line o = .ok o' → outputNonNeg o') ∧
    (∀ (line : String) (o o' : PaypalOutput) (gs : List String),
      regexMatch transactionStartRegExp line = some gs →
      performStateAction .Activity line o = .ok o' →
      ((jsNumber (sanitizeNumberString (gs.getD 3 ""))).isNeg = true →
        ∃ t, txNonNeg t ∧ o' = { o with expenses := o.expenses ++ [t] }) ∧
      ((jsNumber (sanitizeNumberString (gs.getD 3 ""))).isNeg = false →
        ∃ t, txNonNeg t ∧ o' = { o with incomes := o.incomes ++ [t] })) := by
  constructor
  · intro s line o o' hinv h
    simp only [performStateAction] at h
    split at h
    · split at h
      · injection h with h
        subst h
        exact hinv
      · injection h with h
        subst h
        exact hinv
    · split at h
      · split at h
        · split at h
          · injection h with h
            subst h
            refine ⟨?_, hinv.2⟩
            intro t ht
            rcases List.mem_append.1 ht with hmem | hmem
            · exact hinv.1 t hmem
            · rcases List.mem_singleton.1 hmem with rfl
              exact ⟨JsNum.abs_notNeg _, JsNum.abs_notNeg _, JsNum.abs_notNeg _⟩
          · injection h with h
            subst h
            refine ⟨hinv.1, ?_⟩
            intro t ht
            rcases List.mem_append.1 ht with hmem | hmem
            · exact hinv.2 t hmem
            · rcases List.mem_singleton.1 hmem with rfl
              exact ⟨JsNum.abs_notNeg _, JsNum.abs_notNeg _, JsNum.abs_notNeg _⟩
        · injection h with h
          subst h
          exact hinv
      · split at h
        · split at h
          · rename_i lastExpense hlast
            injection h with h
            subst h
            have hmemLast : lastExpense ∈ o.expenses := by
              rcases List.mem_getLast?_eq_getLast (by rw [hlast]; rfl) with ⟨hne, heq⟩
              rw [heq]
              exact List.getLast_mem hne
            refine ⟨?_, hinv.2⟩
            intro t ht
            rcases List.mem_append.1 ht with hmem | hmem
            · exact hinv.1 t (List.dropLast_subset _ hmem)
            · rcases List.mem_singleton.1 hmem with rfl
              exact hinv.1 lastExpense hmemLast
          · exact absurd h (by simp)
        · split at h
          · split at h
            · rename_i lastIncome hlast
              injection h with h
              subst h
              have hmemLast : lastIncome ∈ o.incomes := by
                rcases List.mem_getLast?_eq_getLast (by rw [hlast]; rfl) with ⟨hne, heq⟩
                rw [heq]
                exact List.getLast_mem hne
              refine ⟨hinv.1, ?_⟩
              intro t ht
              rcases List.mem_append.1 ht with hmem | hmem
              · exact hinv.2 t (List.dropLast_subset _ hmem)
              · rcases List.mem_singleton.1 hmem with rfl
                exact hinv.2 lastIncome hmemLast
            · exact absurd h (by simp)
          · injection h with h
            subst h
            exact hinv
  · intro line o o' gs hm h
    simp only [performStateAction, if_true] at h
    simp only [hm] at h
    by_cases hneg : (jsNumber (sanitizeNumberString (gs.getD 3 ""))).isNeg = true
    · rw [if_pos hneg] at h
      injection h with h
      constructor
      · intro _
        exact ⟨_, ⟨JsNum.abs_notNeg _, JsNum.abs_notNeg _, JsNum.abs_notNeg _⟩, h.symm⟩
      · intro hfalse
        rw [hfalse] at hneg
        exact absurd hneg (by simp)
    · rw [if_neg hneg] at h
      injection h with h
      constructor
      · intro htrue
        exact absurd htrue hneg
      · intro _
        exact ⟨_, ⟨JsNum.abs_notNeg _, JsNum.abs_notNeg _, JsNum.abs_notNeg _⟩, h.symm⟩

/-- A transaction line whose amount column (4.50) and total column (-4.50)
disagree in sign. -/
def c10Line : String := "1/5/2021 Mixed Sign USD 4.50 0.00 -4.50"

def c10Start : PaypalOutput := paypalStartingOutput "x.pdf" 20

/-- The transaction the PayPal action builds from `c10Line`. -/
def c10Tx : PaypalTransaction where
  date := some ⟨2021, 1, 5⟩
  description := "Mixed Sign"
  amount := .num (mkRat 9 2)
  fees := .num 0
  baseAmount := .num (mkRat 9 2)
  originalText := ["1/5/2021 Mixed Sign USD 4.50 0.00 -4.50"]

/-- Claim C10, counterexample to the claim as stated: on a line whose
total column is negative (-4.50) but whose amount column is positive
(4.50), the action appends the transaction to `incomes`, not `expenses`
— `paypal-parser.ts` line 70 branches on the amount column
(`amount < 0 ? output.expenses : output.incomes`), not on the total. -/
theorem c10_counterexample :
    regexMatch transactionStartRegExp c10Line =
      some [c10Line, "1/5/2021", "Mixed Sign ", "4.50", "0.00", "-4.50"] ∧
    (jsNumber (sanitizeNumberString "-4.50")).isNeg = true ∧
    performStateAction .Activity c10Line c10Start =
      .ok { c10Start with incomes := [c10Tx] } := by
  refine ⟨?_, ?_, ?_⟩
  · simp +decide [regexMatch, regexSearchFrom, matchItems, litMatches, classRun, firstSome,
      sliceStr, transactionStartRegExp, amtChar, CharCls.matchesChar, c10Line]
  · simp +decide [sanitizeNumberString, jsNumber, jsNumVal, trimChars, digitsToNat, pow10,
      JsNum.isNeg]
  · simp +decide [performStateAction, c10Start, c10Tx, paypalStartingOutput, c10Line,
      regexMatch, regexSearchFrom, matchItems, litMatches, classRun, firstSome, sliceStr,
      transactionStartRegExp, amtChar, CharCls.matchesChar, dateFromSlashFormat, splitChars,
      collapseSpaces, joinWithSpace, sanitizeNumberString, jsNumber, jsNumVal, trimChars,
      digitsToNat, pow10, JsNum.abs, JsNum.isNeg]

/-- An ordinary all-negative expense line for the witness. -/
def c10WLine : String := "2/7/2021 Coffee USD -3.25 0.00 -3.25"

def c10WStart : PaypalOutput := paypalStartingOutput "w.pdf" 20

def c10WTx : PaypalTransaction where
  date := some ⟨2021, 2, 7⟩
  description := "Coffee"
  amount := .num (mkRat 13 4)
  fees := .num 0
  baseAmount := .num (mkRat 13 4)
  originalText := ["2/7/2021 Coffee USD -3.25 0.00 -3.25"]

def c10WOut : PaypalOutput := { c10WStart with expenses := [c10WTx] }

/-- Witness for `c10_abs_values_and_amount_column` on a concrete expense
line: the produced output satisfies the non-negativity invariant and the
negative amount column routed the transaction to `expenses`. -/
theorem c10_witness :
    outputNonNeg c10WOut ∧
    (∃ t, txNonNeg t ∧ c10WOut = { c10WStart with expenses := c10WStart.expenses ++ [t] }) := by
  have hm : regexMatch transactionStartRegExp c10WLine =
      some [c10WLine, "2/7/2021", "Coffee ", "-3.25", "0.00", "-3.25"] := by
    simp +decide [regexMatch, regexSearchFrom, matchItems, litMatches, classRun, firstSome,
      sliceStr, transactionStartRegExp, amtChar, CharCls.matchesChar, c10WLine]
  have hact : performStateAction .Activity c10WLine c10WStart = .ok c10WOut := by
    simp +decide [performStateAction, c10WStart, c10WOut, c10WTx, paypalStartingOutput,
      c10WLine, regexMatch, regexSearchFrom, matchItems, litMatches, classRun, firstSome,
      sliceStr, transactionStartRegExp, amtChar, CharCls.matchesChar, dateFromSlashFormat,
      splitChars, collapseSpaces, joinWithSpace, sanitizeNumberString, jsNumber, jsNumVal,
      trimChars, digitsToNat, pow10, JsNum.abs, JsNum.isNeg]
  have hinv : outputNonNeg c10WStart := by
    constructor <;> intro t ht <;> simp [c10WStart, paypalStartingOutput] at ht
  have hneg : (jsNumber (sanitizeNumberString
      ([c10WLine, "2/7/2021", "Coffee ", "-3.25", "0.00", "-3.25"].getD 3 ""))).isNeg = true := by
    simp +decide [sanitizeNumberString, jsNumber, jsNumVal, trimChars, digitsToNat, pow10,
      JsNum.isNeg]
  refine ⟨c10_abs_values_and_amount_column.1 .Activity c10WLine c10WStart c10WOut hinv hact, ?_⟩
  exact (c10_abs_values_and_amount_column.2 c10WLine c10WStart c10WOut _ hm hact).1 hneg

/-! ## Claim C8 — per-call freshness of the initial output

The engine builds each parse call's starting output as
`{...startingOutput, ...JSON.parse(JSON.stringify(initOutput || {}))}`
(`parser-state-machine.ts` lines 88-102): a scaffold whose nested arrays
are created inside the call, overlaid with a deep, reference-free copy of
the caller's initial-output fragment. To make the "no shared nested
references" half of the claim statable, JSON-like values are modelled as
trees (`JTree`; arrays and objects as linked nodes, the granularity JS
object identity distinguishes), and stored values (`AVal`) carry an
explicit heap address on every node; building an initial output allocates
every node of the result at a fresh address from a monotone counter,
which is exactly the source behaviour (every object reachable from the
result is created during the call, by the scaffold literal or by
`JSON.parse`). Structural equality of two runs is `AVal.strip` equality;
the runs that follow are pure functions of this value, so equal initial
outputs give structurally equal parse results. -/

/-- A JSON-like value as found in a caller's `initOutput` fragment,
function properties included. -/
inductive JTree where
  | str (s : String)
  | num (n : Int)
  | boolv (b : Bool)
  | nullv
  | func
  | arrNil
  | arrCons (head tail : JTree)
  | objNil
  | objCons (key : String) (val rest : JTree)
deriving DecidableEq, Repr

/-- `JSON.parse(JSON.stringify(x))`: functions in array position become
null, function-valued properties are dropped (a bare top-level function
is also mapped to null here; `initOutput` is always an object). -/
def jsonRoundTrip : JTree → JTree
  | .str s => .str s
  | .num n => .num n
  | .boolv b => .boolv b
  | .nullv => .nullv
  | .func => .nullv
  | .arrNil => .arrNil
  | .arrCons h t => .arrCons (jsonRoundTrip h) (jsonRoundTrip t)
  | .objNil => .objNil
  | .objCons k v r =>
    match v with
    | .func => jsonRoundTrip r
    | _ => .objCons k (jsonRoundTrip v) (jsonRoundTrip r)

/-- A stored JSON-like value: every node carries its heap address. -/
inductive AVal where
  | str (a : Nat) (s : String)
  | num (a : Nat) (n : Int)
  | boolv (a : Nat) (b : Bool)
  | nullv (a : Nat)
  | funcv (a : Nat)
  | arrNil (a : Nat)
  | arrCons (a : Nat) (head tail : AVal)
  | objNil (a : Nat)
  | objCons (a : Nat) (key : String) (val rest : AVal)
deriving DecidableEq, Repr

/-- All heap addresses reachable from a stored value. -/
def AVal.addrs : AVal → List Nat
  | .str a _ => [a]
  | .num a _ => [a]
  | .boolv a _ => [a]
  | .nullv a => [a]
  | .funcv a => [a]
  | .arrNil a => [a]
  | .arrCons a h t => a :: (h.addrs ++ t.addrs)
  | .objNil a => [a]
  | .objCons a _ v r => a :: (v.addrs ++ r.addrs)

/-- The pure structure of a stored value (its observable content). -/
def AVal.strip : AVal → JTree
  | .str _ s => .str s
  | .num _ n => .num n
  | .boolv _ b => .boolv b
  | .nullv _ => .nullv
  | .funcv _ => .func
  | .arrNil _ => .arrNil
  | .arrCons _ h t => .arrCons h.strip t.strip
  | .objNil _ => .objNil
  | .objCons _ k v r => .objCons k v.strip r.strip

/-- Store a tree, giving every node a fresh address from the counter. -/
def alloc : JTree → Nat → AVal × Nat
  | .str s, c => (.str c s, c + 1)
  | .num n, c => (.num c n, c + 1)
  | .boolv b, c => (.boolv c b, c + 1)
  | .nullv, c => (.nullv c, c + 1)
  | .func, c => (.funcv c, c + 1)
  | .arrNil, c => (.arrNil c, c + 1)
  | .arrCons h t, c =>
    (.arrCons c (alloc h (c + 1)).1 (alloc t (alloc h (c + 1)).2).1,
      (alloc t (alloc h (c + 1)).2).2)
  | .objNil, c => (.objNil c, c + 1)
  | .objCons k v r, c =>
    (.objCons c k (alloc v (c + 1)).1 (alloc r (alloc v (c + 1)).2).1,
      (alloc r (alloc v (c + 1)).2).2)

theorem alloc_snd_le : ∀ (t : JTree) (c : Nat), c ≤ (alloc t c).2 := by
  intro t
  induction t with
  | str s => intro c; simp [alloc]
  | num n => intro c; simp [alloc]
  | boolv b => intro c; simp [alloc]
  | nullv => intro c; simp [alloc]
  | func => intro c; simp [alloc]
  | arrNil => intro c; simp [alloc]
  | arrCons h t ihh iht =>
    intro c
    calc c ≤ c + 1 := Nat.le_succ c
    _ ≤ (alloc h (c + 1)).2 := ihh (c + 1)
    _ ≤ (alloc t (alloc h (c + 1)).2).2 := iht _
    _ = (alloc (.arrCons h t) c).2 := by simp [alloc]
  | objNil => intro c; simp [alloc]
  | objCons k v r ihv ihr =>
    intro c
    calc c ≤ c + 1 := Nat.le_succ c
    _ ≤ (alloc v (c + 1)).2 := ihv (c + 1)
    _ ≤ (alloc r (alloc v (c + 1)).2).2 := ihr _
    _ = (alloc (.objCons k v r) c).2 := by simp [alloc]

/-- Every address of a freshly stored value lies in the allocation window
`[c, (alloc t c).2)`. -/
theorem alloc_addrs_bound :
    ∀ (t : JTree) (c a : Nat), a ∈ ((alloc t c).1).addrs → c ≤ a ∧ a < (alloc t c).2 := by
  intro t
  induction t with
  | str s => intro c a h; simp [alloc, AVal.addrs] at h ⊢; omega
  | num n => intro c a h; simp [alloc, AVal.addrs] at h ⊢; omega
  | boolv b => intro c a h; simp [alloc, AVal.addrs] at h ⊢; omega
  | nullv => intro c a h; simp [alloc, AVal.addrs] at h ⊢; omega
  | func => intro c a h; simp [alloc, AVal.addrs] at h ⊢; omega
  | arrNil => intro c a h; simp [alloc, AVal.addrs] at h ⊢; omega
  | arrCons hd tl ihh iht =>
    intro c a h
    simp only [alloc, AVal.addrs, List.mem_cons, List.mem_append] at h
    rcases h with rfl | hmem | hmem
    · refine ⟨le_refl a, ?_⟩
      simp only [alloc]
      calc a < a + 1 := Nat.lt_succ_self a
      _ ≤ (alloc hd (a + 1)).2 := alloc_snd_le hd (a + 1)
      _ ≤ (alloc tl (alloc hd (a + 1)).2).2 := alloc_snd_le tl _
    · obtain ⟨h1, h2⟩ := ihh (c + 1) a hmem
      refine ⟨by omega, ?_⟩
      simp only [alloc]
      calc a < (alloc hd (c + 1)).2 := h2
      _ ≤ (alloc tl (alloc hd (c + 1)).2).2 := alloc_snd_le tl _
    · obtain ⟨h1, h2⟩ := iht (alloc hd (c + 1)).2 a hmem
      constructor
      · have := alloc_snd_le hd (c + 1)
        omega
      · simpa [alloc] using h2
  | objNil => intro c a h; simp [alloc, AVal.addrs] at h ⊢; omega
  | objCons k v r ihv ihr =>
    intro c a h
    simp only [alloc, AVal.addrs, List.mem_cons, List.mem_append] at h
    rcases h with rfl | hmem | hmem
    · refine ⟨le_refl a, ?_⟩
      simp only [alloc]
      calc a < a + 1 := Nat.lt_succ_self a
      _ ≤ (alloc v (a + 1)).2 := alloc_snd_le v (a + 1)
      _ ≤ (alloc r (alloc v (a + 1)).2).2 := alloc_snd_le r _
    · obtain ⟨h1, h2⟩ := ihv (c + 1) a hmem
      refine ⟨by omega, ?_⟩
      simp only [alloc]
      calc a < (alloc v (c + 1)).2 := h2
      _ ≤ (alloc r (alloc v (c + 1)).2).2 := alloc_snd_le r _
    · obtain ⟨h1, h2⟩ := ihr (alloc v (c + 1)).2 a hmem
      constructor
      · have := alloc_snd_le v (c + 1)
        omega
      · simpa [alloc] using h2

/-- Storing a tree preserves its structure. -/
theorem strip_alloc : ∀ (t : JTree) (c : Nat), ((alloc t c).1).strip = t := by
  intro t
  induction t with
  | str s => intro c; rfl
  | num n => intro c; rfl
  | boolv b => intro c; rfl
  | nullv => intro c; rfl
  | func => intro c; rfl
  | arrNil => intro c; rfl
  | arrCons h t ihh iht => intro c; simp [alloc, AVal.strip, ihh, iht]
  | objNil => intro c; rfl
  | objCons k v r ihv ihr => intro c; simp [alloc, AVal.strip, ihv, ihr]

def objKeys : JTree → List String
  | .objCons k _ r => k :: objKeys r
  | _ => []

def lookupKey (k : String) : JTree → Option JTree
  | .objCons k' v r => if k' = k then some v else lookupKey k r
  | _ => none

def updateBase : JTree → JTree → JTree
  | .objCons k v r, frag => .objCons k ((lookupKey k frag).getD v) (updateBase r frag)
  | t, _ => t

def removeKeys (ks : List String) : JTree → JTree
  | .objCons k v r => if ks.contains k then removeKeys ks r else .objCons k v (removeKeys ks r)
  | t => t

def objAppend : JTree → JTree → JTree
  | .objCons k v r, t => .objCons k v (objAppend r t)
  | _, t => t

/-- JavaScript object spread `{...base, ...frag}`: base keys keep their
position with frag's value where present, frag's new keys are appended;
spreading a non-object adds nothing. -/
def spreadMerge (base frag : JTree) : JTree :=
  match frag with
  | .objCons _ _ _ => objAppend (updateBase base frag) (removeKeys (objKeys base) frag)
  | _ => base

/-- The `startingOutput` scaffold (`parser-state-machine.ts` lines 88-96)
as a plain tree: empty income/expense arrays, the supplied file path and
year prefix, empty account suffix, and absent date bounds (`undefined`,
rendered as null here). -/
def startingOutputTree (filePath : String) (yearPrefix : Int) : JTree :=
  .objCons "incomes" .arrNil (.objCons "expenses" .arrNil (.objCons "filePath" (.str filePath)
    (.objCons "yearPrefix" (.num yearPrefix) (.objCons "accountSuffix" (.str "")
    (.objCons "startDate" .nullv (.objCons "endDate" .nullv .objNil))))))

/-- One parse call's initial-output construction
(`parser-state-machine.ts` lines 88-102): the scaffold overlaid with the
JSON round trip of the caller's fragment, every node of the result stored
at a fresh address. -/
def buildInitialOutput (filePath : String) (yearPrefix : Int) (frag : JTree) (c : Nat) :
    AVal × Nat :=
  alloc (spreadMerge (startingOutputTree filePath yearPrefix) (jsonRoundTrip frag)) c

/-- Claim C8. Two successive parse calls sharing the same format
definition (the same caller fragment, stored below the current allocation
counter), file path and options build structurally equal initial outputs
that occupy pairwise disjoint heap addresses, and neither shares any
address with the caller's stored fragment — so mutating the result of one
call can affect neither the other call's result nor the shared format
definition, and the subsequent runs (pure functions of this value) return
structurally equal outputs. -/
theorem c8_parse_call_isolation (fp : String) (yp : Int) (fragStored : AVal) (c0 : Nat)
    (hc : ∀ a ∈ fragStored.addrs, a < c0) :
    ((buildInitialOutput fp yp fragStored.strip c0).1).strip =
      ((buildInitialOutput fp yp fragStored.strip
        (buildInitialOutput fp yp fragStored.strip c0).2).1).strip ∧
    (((buildInitialOutput fp yp fragStored.strip c0).1).addrs).Disjoint
      (((buildInitialOutput fp yp fragStored.strip
        (buildInitialOutput fp yp fragStored.strip c0).2).1).addrs) ∧
    (fragStored.addrs).Disjoint (((buildInitialOutput fp yp fragStored.strip c0).1).addrs) ∧
    (fragStored.addrs).Disjoint (((buildInitialOutput fp yp fragStored.strip
      (buildInitialOutput fp yp fragStored.strip c0).2).1).addrs) := by
  refine ⟨?_, ?_, ?_, ?_⟩
  · simp only [buildInitialOutput]
    rw [strip_alloc, strip_alloc]
  · intro a h1 h2
    simp only [buildInitialOutput] at h1 h2
    have b1 := alloc_addrs_bound _ c0 a h1
    have b2 := alloc_addrs_bound _ (buildInitialOutput fp yp fragStored.strip c0).2 a h2
    have : a < (buildInitialOutput fp yp fragStored.strip c0).2 := b1.2
    have : (buildInitialOutput fp yp fragStored.strip c0).2 ≤ a := b2.1
    omega
  · intro a h1 h2
    simp only [buildInitialOutput] at h2
    have := hc a h1
    have := (alloc_addrs_bound _ c0 a h2).1
    omega
  · intro a h1 h2
    simp only [buildInitialOutput] at h2
    have := hc a h1
    have h3 := (alloc_addrs_bound _ (buildInitialOutput fp yp fragStored.strip c0).2 a h2).1
    have h4 : c0 ≤ (buildInitialOutput fp yp fragStored.strip c0).2 := alloc_snd_le _ c0
    omega

/-- A caller fragment stored at addresses 0-2, presetting an account
suffix. -/
def c8Frag : AVal := .objCons 0 "accountSuffix" (.str 1 "9876") (.objNil 2)

/-- Witness for `c8_parse_call_isolation` at a concrete fragment and
counter. -/
theorem c8_witness :
    ((buildInitialOutput "p.pdf" 20 c8Frag.strip 3).1).strip =
      ((buildInitialOutput "p.pdf" 20 c8Frag.strip
        (buildInitialOutput "p.pdf" 20 c8Frag.strip 3).2).1).strip ∧
    (((buildInitialOutput "p.pdf" 20 c8Frag.strip 3).1).addrs).Disjoint
      (((buildInitialOutput "p.pdf" 20 c8Frag.strip
        (buildInitialOutput "p.pdf" 20 c8Frag.strip 3).2).1).addrs) ∧
    (c8Frag.addrs).Disjoint (((buildInitialOutput "p.pdf" 20 c8Frag.strip 3).1).addrs) ∧
    (c8Frag.addrs).Disjoint (((buildInitialOutput "p.pdf" 20 c8Frag.strip
      (buildInitialOutput "p.pdf" 20 c8Frag.strip 3).2).1).addrs) :=
  c8_parse_call_isolation "p.pdf" 20 c8Frag 3 (by decide)
